import Mathlib

/-!
Shallow embedding of the SPADE repository (models/networks/normalization.py
and data/pix2pix_dataset.py), with theorems checking the natural-language
specification against the code.

Conventions:
* Python strings are Lean `String`; numeric pixel/weight values are `ℚ`
  (the numeric framework computes in floating point; the claims here are
  about the exact arithmetic of the expressions the code builds).
* Fallible Python code (exceptions, framework shape errors) is embedded as
  `Option`/`Except`.
* Mutation is embedded as explicit state passing.
-/

namespace SPADERepo

/-! ## String primitives

Python's `str.startswith` and slicing `s[n:]`, written over the character
list of the string so that concrete instances reduce in the kernel. -/
/-- Python `s.startswith(pre)`. -/
def pyStartsWith (s pre : String) : Bool :=
  pre.toList.isPrefixOf s.toList

/-- Python `s[n:]`. -/
def pyDrop (s : String) (n : Nat) : String :=
  ⟨s.toList.drop n⟩

/-! ## normalization.py: get_nonspade_norm_layer / add_norm_layer (lines 16-51)

A layer passed to `add_norm_layer` is abstracted by the attributes the
function reads and writes: `out_channels` (when present), `weight.size(0)`,
whether a `bias` parameter is present, and whether `spectral_norm` has been
applied to it (PyTorch's `spectral_norm` modifies the module in place and
returns it, so attribute reads still reach the underlying layer). -/
structure Layer where
  out_channels : Option Nat
  weight_size0 : Nat
  bias : Bool
  spectral : Bool
deriving DecidableEq, Repr

/-- The normalization module appended after the layer, when one is. -/
inductive NormModule where
  | batchNorm2d (numFeatures : Nat) (affine : Bool)
  | syncBatchNorm2d (numFeatures : Nat) (affine : Bool)
  | instanceNorm2d (numFeatures : Nat) (affine : Bool)
deriving DecidableEq, Repr

/-- Result of `add_norm_layer`: the layer alone, a
`nn.Sequential(layer, norm_layer)`, or a raised `ValueError`. -/
inductive NormLayerResult where
  | plain (l : Layer)
  | sequentialWith (l : Layer) (norm : NormModule)
  | valueError (subnorm : String)
deriving DecidableEq, Repr

/-- Function `get_out_channel` (normalization.py lines 18-21): `layer.out_channels`
when the attribute exists, otherwise `layer.weight.size(0)`. -/
def get_out_channel (layer : Layer) : Nat :=
  match layer.out_channels with
  | some c => c
  | none => layer.weight_size0

/-- Function `add_norm_layer` (normalization.py lines 24-49), the closure returned by
`get_nonspade_norm_layer(opt, norm_type)`; `norm_type` is the closed-over
argument. -/
def add_norm_layer (norm_type : String) (layer : Layer) : NormLayerResult :=
  -- subnorm_type = 'none'; if norm_type.startswith('spectral'): ...
  let st :=
    if pyStartsWith norm_type "spectral" then
      ({ layer with spectral := true }, pyDrop norm_type 8)
    else
      (layer, "none")
  let layer := st.1
  let subnorm_type := st.2
  if subnorm_type = "none" ∨ subnorm_type.length = 0 then
    .plain layer
  else
    -- remove bias in the previous layer (only when a bias is present)
    let layer := if layer.bias then { layer with bias := false } else layer
    if subnorm_type = "batch" then
      .sequentialWith layer (.batchNorm2d (get_out_channel layer) true)
    else if subnorm_type = "sync_batch" then
      .sequentialWith layer (.syncBatchNorm2d (get_out_channel layer) true)
    else if subnorm_type = "instance" then
      .sequentialWith layer (.instanceNorm2d (get_out_channel layer) false)
    else
      .valueError subnorm_type

/-! ## data/pix2pix_dataset.py: path handling

`os.path.basename` and the root component of `os.path.splitext`, as used by
`Pix2pixDataset.paths_match` (lines 61-64).  `splitext` here receives only
basenames (strings without `'/'`), for which CPython's rule is: the
extension starts at the last `'.'`, unless every character before that dot
is itself a dot (so `'.bashrc'` has no extension). -/
/-- Python `os.path.basename(p)`: the part of `p` after the last `'/'`. -/
def basename (p : String) : String :=
  ⟨(p.toList.reverse.takeWhile (fun c => c ≠ '/')).reverse⟩

/-- The first component of `os.path.splitext(p)` for a `'/'`-free `p`. -/
def splitext_root (p : String) : String :=
  let l := p.toList
  let extRev := l.reverse.takeWhile (fun c => c ≠ '.')
  if extRev.length = l.length then p
  else
    let rootLen := l.length - extRev.length - 1
    if (l.take rootLen).all (fun c => c = '.') then p
    else ⟨l.take rootLen⟩

/-- Method `Pix2pixDataset.paths_match` (lines 61-64): the two paths' basenames
with extensions removed are equal strings. -/
def paths_match (path1 path2 : String) : Bool :=
  splitext_root (basename path1) == splitext_root (basename path2)

/-! ## data/pix2pix_dataset.py: Pix2pixDataset state -/
/-- The fields of the options object that `Pix2pixDataset` reads or writes. -/
structure Opt where
  no_pairing_check : Bool
  max_dataset_size : Nat
  no_instance : Bool
  no_flip : Bool
  label_nc : Nat
deriving DecidableEq, Repr

/-- Modelled from the spec: `util.natural_sort` (imported from `util.util`,
which is not part of the two source files) — the "dataset indexing/sorting"
step.  A string is split into maximal digit / non-digit chunks; digit chunks
compare numerically, other chunks compare as strings, and the list of chunks
compares lexicographically.  Chunks are accumulated in reverse by a fold. -/
def natChunksRev (l : List Char) : List (Bool × List Char) :=
  l.foldl
    (fun acc c =>
      match acc with
      | [] => [(c.isDigit, [c])]
      | (d, cs) :: rest =>
        if c.isDigit = d then (d, c :: cs) :: rest
        else (c.isDigit, [c]) :: (d, cs) :: rest)
    []

/-- Digits to the number they denote (most significant first). -/
def digitsVal (l : List Char) : Nat :=
  l.foldl (fun n c => 10 * n + (c.toNat - '0'.toNat)) 0

/-- Modelled from the spec: the natural-sort key of a string. -/
def natKey (s : String) : List (Nat ⊕ String) :=
  (natChunksRev s.toList).reverse.map
    (fun dc => if dc.1 then .inl (digitsVal dc.2.reverse) else .inr ⟨dc.2.reverse⟩)

/-- Modelled from the spec: lexicographic comparison of natural-sort keys
(numeric chunks sort before textual ones). -/
def natKeyLe : List (Nat ⊕ String) → List (Nat ⊕ String) → Bool
  | [], _ => true
  | _ :: _, [] => false
  | a :: as, b :: bs =>
    match a, b with
    | .inl m, .inl n => if m = n then natKeyLe as bs else decide (m < n)
    | .inr s, .inr t => if s = t then natKeyLe as bs else decide (s < t)
    | .inl _, .inr _ => true
    | .inr _, .inl _ => false

/-- Insertion of a string into a natural-sorted list. -/
def natInsert (a : String) : List String → List String
  | [] => [a]
  | b :: l =>
    if natKeyLe (natKey a) (natKey b) then a :: b :: l else b :: natInsert a l

/-- Modelled from the spec: `util.natural_sort(l)` sorts `l` in natural
order (file names with embedded numbers ordered by their numeric value),
here as an insertion sort on the natural-sort keys. -/
def natural_sort (l : List String) : List String :=
  l.foldr natInsert []

/-- The dataset attributes set by `Pix2pixDataset.initialize`. -/
structure DatasetState where
  opt : Opt
  label_paths : List String
  image_paths : List String
  input_paths : List String
  instance_paths : List String
  dataset_size : Nat
deriving DecidableEq, Repr

/-- Method `Pix2pixDataset.initialize` (lines 21-51).  `self.get_paths(opt)` is
overridden by subclasses (the base raises), so its four result lists are
supplied as arguments.  A failed pairing assertion is `Except.error`; the
loop succeeds iff every index-aligned triple (up to the shortest list, as
with Python `zip`) passes both `paths_match` checks. -/
def dsInit (opt : Opt)
    (label_paths0 image_paths0 input_paths0 instance_paths0 : List String) :
    Except String DatasetState :=
  let label_paths := natural_sort label_paths0
  let image_paths := natural_sort image_paths0
  let input_paths := natural_sort input_paths0
  let instance_paths :=
    if ¬opt.no_instance then natural_sort instance_paths0 else instance_paths0
  let label_paths := label_paths.take opt.max_dataset_size
  let image_paths := image_paths.take opt.max_dataset_size
  let input_paths := input_paths.take opt.max_dataset_size
  let instance_paths := instance_paths.take opt.max_dataset_size
  if opt.no_pairing_check ∨
      (label_paths.zip (image_paths.zip input_paths)).all
        (fun t => paths_match t.1 t.2.1 && paths_match t.1 t.2.2) then
    .ok { opt := opt
          label_paths := label_paths
          image_paths := image_paths
          input_paths := input_paths
          instance_paths := instance_paths
          dataset_size := label_paths.length }
  else
    .error "AssertionError: label-image pair do not look like the right pair"

/-- Method `Pix2pixDataset.__len__` (lines 148-149). -/
def dataset_len (st : DatasetState) : Nat :=
  st.dataset_size

/-! ## data/pix2pix_dataset.py: __getitem__ -/
/-- Numpy `image.min()` / `image.max()` over the pixels of one image
(flattened to a list of the unsigned integers `cv2.imread` delivers; numpy
raises on an empty array, the `[]` case below is never reached by the
claims). -/
def npMin : List Nat → Nat
  | [] => 0
  | a :: t => t.foldl min a

/-- See `npMin`. -/
def npMax : List Nat → Nat
  | [] => 0
  | a :: t => t.foldl max a

/-- Lines 97 and 116:
`image = 2 * (image - image.min())/(image.max() - image.min()) - 1`,
elementwise over the pixels of the single image.  `cv2.imread(path, -1)`
yields an unsigned integer array of the file's bit depth `w` (uint8 or
uint16), and numpy evaluates `image - image.min()` and the product with the
Python scalar `2` in that same dtype: the subtraction cannot wrap (the
minimum is subtracted), but the doubling wraps modulo `2 ^ w`.  The true
division by the `max - min` scalar then promotes to float, modelled as
exact division (and `- 1` acts in float). -/
def rescale (w : Nat) (img : List Nat) : List ℚ :=
  img.map (fun v =>
    ((2 * (v - npMin img) % 2 ^ w : Nat) : ℚ)
      / ((npMax img : ℚ) - (npMin img : ℚ)) - 1)

/-- The external collaborators of `__getitem__`: the PIL/torchvision label
transform pipeline (`get_params` + `get_transform` applied to the opened
image; it reads the options object, so it receives the current `Opt`), and
`cv2.imread(path, -1)[:, :, 0]` for the target/input images — the pixel
integers together with the bit width of the file's unsigned dtype. -/
structure GetItemExt where
  transform_label : Opt → String → List ℚ
  imread0 : String → List Nat
  imread_bits : String → Nat
  mode_is_L : String → Bool

/-- The dict built at lines 133-138. `instance_tensor` is `none` for the
Python constant `0` used when `opt.no_instance` is set. -/
structure ItemDict where
  label : List ℚ
  instance_tensor : Option (List ℚ)
  image : List ℚ
  path : String
  input : List ℚ

/-- Python `l[i]` for a non-negative index: `IndexError` when out of range. -/
def listGet (l : List String) (i : Nat) : Except String String :=
  match l.get? i with
  | some x => .ok x
  | none => .error "IndexError: list index out of range"

/-- Method `Pix2pixDataset.postprocess` (lines 145-146): the base class returns the
dict unchanged. -/
def postprocess (d : ItemDict) : ItemDict :=
  d

/-- Method `Pix2pixDataset.__getitem__` (lines 66-143).  File reads and the
torchvision transforms are supplied by `ext`; the result is the (possibly
mutated) dataset state paired with either a raised error or the returned
dict.  `label_tensor.long()` for `'L'`-mode instance maps is a dtype cast
and leaves the (integral) values unchanged. -/
def getitem (st : DatasetState) (index : Nat) (ext : GetItemExt) :
    DatasetState × Except String ItemDict :=
  -- self.opt.no_flip = True  (line 69): the only mutation of shared state
  let st := { st with opt := { st.opt with no_flip := true } }
  (st, do
    let label_path ← listGet st.label_paths index
    -- label_tensor = transform_label(label) * 255.0;  'unknown' is opt.label_nc
    let label_tensor := (ext.transform_label st.opt label_path).map (· * 255)
    let label_tensor :=
      label_tensor.map fun v => if v = 255 then (st.opt.label_nc : ℚ) else v
    -- target image (real images)
    let image_path ← listGet st.image_paths index
    if ¬paths_match label_path image_path then
      throw "AssertionError: the label_path and image_path do not match"
    else do
      let image_tensor :=
        rescale (ext.imread_bits image_path) (ext.imread0 image_path)
      -- input image
      let input_path ← listGet st.input_paths index
      if ¬paths_match label_path input_path then
        throw "AssertionError: the label_path and input path do not match"
      else do
        let input_tensor :=
          rescale (ext.imread_bits input_path) (ext.imread0 input_path)
        -- if using instance maps
        let instance_tensor ←
          if st.opt.no_instance then
            pure none
          else do
            let instance_path ← listGet st.instance_paths index
            if ext.mode_is_L instance_path then
              pure (some ((ext.transform_label st.opt instance_path).map (· * 255)))
            else
              pure (some (ext.transform_label st.opt instance_path))
        let input_dict : ItemDict :=
          { label := label_tensor
            instance_tensor := instance_tensor
            image := image_tensor
            path := image_path
            input := input_tensor }
        let _ := postprocess input_dict
        pure input_dict)

/-! ## normalization.py: the SPADE configuration step (lines 68-84)

`re.search('spade(\\D+)(\\d)x\\d', config_text)`: the literal `spade`, a
greedy non-empty run of non-digits, a digit (group 2), the literal `x`, a
digit.  After the literal, `\D+` can only match a prefix of the maximal
non-digit run, and shrinking the greedy run puts a non-digit where `(\d)`
must match, so only the maximal run can complete a match at a given
position; backtracking therefore reduces to taking the maximal run and
checking `(\d)`, `x`, `\d` after it.  `re.search` tries successive start
positions left to right. -/
/-- One match attempt of `spade(\D+)(\d)x\d` anchored at the head of `l`,
returning (group(1), int(group(2))). -/
def spadeMatchAt (l : List Char) : Option (String × Nat) :=
  match l with
  | 's' :: 'p' :: 'a' :: 'd' :: 'e' :: rest =>
    let run := rest.takeWhile (fun c => ¬c.isDigit)
    let after := rest.dropWhile (fun c => ¬c.isDigit)
    if run.isEmpty then none
    else
      match after with
      | d1 :: x :: d2 :: _ =>
        if d1.isDigit ∧ x = 'x' ∧ d2.isDigit then
          some (⟨run⟩, d1.toNat - '0'.toNat)
        else none
      | _ => none
  | _ => none

/-- Python `re.search('spade(\D+)(\d)x\d', ·)` over the characters of the text. -/
def spadeSearch : List Char → Option (String × Nat)
  | [] => none
  | c :: rest =>
    match spadeMatchAt (c :: rest) with
    | some r => some r
    | none => spadeSearch rest

/-- Outcome of the configuration step of `SPADE.__init__`:
the chosen parameter-free normalization module and kernel size, or the
exception raised (`assert` failure; `AttributeError` from `parsed.group(1)`
when the regex found no match; `ValueError` for an unrecognized norm
type). -/
inductive SPADEConfig where
  | ok (param_free_norm : NormModule) (ks : Nat)
  | assertError
  | attributeError
  | valueError (norm_type : String)
deriving DecidableEq, Repr

/-- Lines 68-84 of `SPADE.__init__`: assert `config_text.startswith('spade')`,
parse `spade(norm)(ks)`, and select the affine-free normalization. -/
def spade_config (config_text : String) (norm_nc : Nat) : SPADEConfig :=
  if ¬pyStartsWith config_text "spade" then .assertError
  else
    match spadeSearch config_text.toList with
    | none => .attributeError
    | some (param_free_norm_type, ks) =>
      if param_free_norm_type = "instance" then
        .ok (.instanceNorm2d norm_nc false) ks
      else if param_free_norm_type = "syncbatch" then
        .ok (.syncBatchNorm2d norm_nc false) ks
      else if param_free_norm_type = "batch" then
        .ok (.batchNorm2d norm_nc false) ks
      else
        .valueError param_free_norm_type

/-! ## Tensor model for the SPADE layer (normalization.py lines 87-182)

Rank-4 tensors (batch, channels, height, width) over exact rationals.
Fallible framework operations (shape mismatches, empty outputs) return
`none`.  Elementwise `*`/`+` are modelled for equal shapes, which is the
only way the layer applies them; a mismatch is embedded as `none`. -/
structure Tensor4 where
  n : Nat
  c : Nat
  h : Nat
  w : Nat
  data : Fin n → Fin c → Fin h → Fin w → ℚ

/-- Elementwise product `a * b` of equal-shaped tensors. -/
def ewMul (a b : Tensor4) : Option Tensor4 :=
  if hsh : a.n = b.n ∧ a.c = b.c ∧ a.h = b.h ∧ a.w = b.w then
    some { n := a.n, c := a.c, h := a.h, w := a.w,
           data := fun bi ci i j =>
             a.data bi ci i j *
               b.data (Fin.cast hsh.1 bi) (Fin.cast hsh.2.1 ci)
                 (Fin.cast hsh.2.2.1 i) (Fin.cast hsh.2.2.2 j) }
  else none

/-- Elementwise sum `a + b` of equal-shaped tensors. -/
def ewAdd (a b : Tensor4) : Option Tensor4 :=
  if hsh : a.n = b.n ∧ a.c = b.c ∧ a.h = b.h ∧ a.w = b.w then
    some { n := a.n, c := a.c, h := a.h, w := a.w,
           data := fun bi ci i j =>
             a.data bi ci i j +
               b.data (Fin.cast hsh.1 bi) (Fin.cast hsh.2.1 ci)
                 (Fin.cast hsh.2.2.1 i) (Fin.cast hsh.2.2.2 j) }
  else none

/-- Scalar plus tensor, `q + t` (for the `1 + gamma` of line 180). -/
def scalarAdd (q : ℚ) (t : Tensor4) : Tensor4 :=
  { t with data := fun b c i j => q + t.data b c i j }

/-- Module `nn.LeakyReLU(slope)`: `v` if `0 ≤ v`, else `slope * v`, elementwise. -/
def leakyReLU (slope : ℚ) (t : Tensor4) : Tensor4 :=
  { t with data := fun b c i j =>
      if 0 ≤ t.data b c i j then t.data b c i j else slope * t.data b c i j }

/-- Framework `F.interpolate(t, size=(oh, ow), mode='nearest')` (line 140): output
pixel `(i, j)` reads input pixel `(⌊i·h/oh⌋, ⌊j·w/ow⌋)` (exact floor
arithmetic in place of the framework's float scale factor); interpolating
a spatially empty tensor is a framework error. -/
def interpolate_nearest (t : Tensor4) (oh ow : Nat) : Option Tensor4 :=
  if hp : 0 < t.h ∧ 0 < t.w then
    some { n := t.n, c := t.c, h := oh, w := ow,
           data := fun b c i j =>
             t.data b c
               ⟨i.val * t.h / oh,
                 Nat.div_lt_of_lt_mul ((mul_lt_mul_right hp.1).mpr i.isLt)⟩
               ⟨j.val * t.w / ow,
                 Nat.div_lt_of_lt_mul ((mul_lt_mul_right hp.2).mpr j.isLt)⟩ }
  else none

/-- Output spatial extent of `nn.Conv2d` at stride 1:
`(size + 2·padding − dilation·(kernel − 1) − 1) + 1` (the framework
rejects kernels < 1 at module construction and errors when this is < 1). -/
def convOutSize (size k padding dilation : Nat) : Int :=
  (size : Int) + 2 * padding - dilation * ((k : Int) - 1) - 1 + 1

/-- Zero-padded read of an input plane: `r`, `s` are positions in the
padded plane; positions outside the input read 0. -/
def paddedGet (t : Tensor4) (b : Fin t.n) (ci : Fin t.c)
    (pad r s : Nat) : ℚ :=
  if h : pad ≤ r ∧ r - pad < t.h ∧ pad ≤ s ∧ s - pad < t.w then
    t.data b ci ⟨r - pad, h.2.1⟩ ⟨s - pad, h.2.2.2⟩
  else 0

/-- Module `nn.Conv2d(inC, outC, kernel_size=k, padding=padding,
dilation=dilation)` at stride 1:
out(b, oc, i, j) = bias(oc) + Σ_{ic ki kj} weight(oc, ic, ki, kj) ·
padded-input(b, ic, i + ki·dilation, j + kj·dilation); `none` on a channel
mismatch or an empty output extent (framework errors). -/
def conv2d (inC outC k : Nat)
    (weight : Fin outC → Fin inC → Fin k → Fin k → ℚ) (bias : Fin outC → ℚ)
    (padding dilation : Nat) (t : Tensor4) : Option Tensor4 :=
  if hc : t.c = inC ∧ 0 < convOutSize t.h k padding dilation ∧
      0 < convOutSize t.w k padding dilation then
    some { n := t.n, c := outC,
           h := (convOutSize t.h k padding dilation).toNat,
           w := (convOutSize t.w k padding dilation).toNat,
           data := fun b oc i j =>
             bias oc + ∑ ic : Fin inC, ∑ ki : Fin k, ∑ kj : Fin k,
               weight oc ic ki kj *
                 paddedGet t b (Fin.cast hc.1.symm ic) padding
                   (i.val + ki.val * dilation) (j.val + kj.val * dilation) }
  else none

/-- Framework `torch.cat((a, b), dim=1)` (line 147). -/
def catChannels (a b : Tensor4) : Option Tensor4 :=
  if hsh : a.n = b.n ∧ a.h = b.h ∧ a.w = b.w then
    some { n := a.n, c := a.c + b.c, h := a.h, w := a.w,
           data := fun bi ci i j =>
             if hlt : ci.val < a.c then a.data bi ⟨ci.val, hlt⟩ i j
             else
               b.data (Fin.cast hsh.1 bi)
                 ⟨ci.val - a.c, by have := ci.isLt; omega⟩
                 (Fin.cast hsh.2.1 i) (Fin.cast hsh.2.2 j) }
  else none

/-- The hardcoded hidden width of the SPADE MLP (line 87). -/
def nhidden : Nat := 128

/-- The SPADE module (lines 87-129): the learned parameters of
`mlp_shared` (a `Conv2d(label_nc, nhidden, ks, padding=pw, dilation=1)`
followed by `LeakyReLU(0.2)`), `mlp_gamma` and `mlp_beta`
(`Conv2d(nhidden, norm_nc, ks, padding=pw, dilation=1)`), the kernel size
`ks` parsed by the configuration step (`pw = ks // 2`), and the
parameter-free normalization stage.  The stage chosen in lines 76-84
(`InstanceNorm2d` / `SynchronizedBatchNorm2d` / `BatchNorm2d`, all
`affine=False`) is framework code whose statistics involve real square
roots; it enters the model as an opaque tensor-to-tensor field.  The
`mlp_*_2/_4/_8/_16` branches built at lines 90-122 are dead weights: their
only uses in `forward` are commented out (lines 151-171). -/
structure SPADE where
  norm_nc : Nat
  label_nc : Nat
  ks : Nat
  param_free_norm : Tensor4 → Tensor4
  w_shared : Fin nhidden → Fin label_nc → Fin ks → Fin ks → ℚ
  b_shared : Fin nhidden → ℚ
  w_gamma : Fin norm_nc → Fin nhidden → Fin ks → Fin ks → ℚ
  b_gamma : Fin norm_nc → ℚ
  w_beta : Fin norm_nc → Fin nhidden → Fin ks → Fin ks → ℚ
  b_beta : Fin norm_nc → ℚ

/-- Submodule `self.mlp_shared` (lines 124-127). -/
def SPADE.mlp_shared (m : SPADE) (t : Tensor4) : Option Tensor4 :=
  (conv2d m.label_nc nhidden m.ks m.w_shared m.b_shared (m.ks / 2) 1 t).map
    (leakyReLU (2 / 10))

/-- Submodule `self.mlp_gamma` (line 128). -/
def SPADE.mlp_gamma (m : SPADE) (t : Tensor4) : Option Tensor4 :=
  conv2d nhidden m.norm_nc m.ks m.w_gamma m.b_gamma (m.ks / 2) 1 t

/-- Submodule `self.mlp_beta` (line 129). -/
def SPADE.mlp_beta (m : SPADE) (t : Tensor4) : Option Tensor4 :=
  conv2d nhidden m.norm_nc m.ks m.w_beta m.b_beta (m.ks / 2) 1 t

/-- Method `SPADE.forward` (lines 134-182).  `other_channels` defaults to the
empty list, whose only effect (line 144-147) is whether the resized segmap
is concatenated with further channels; the `segmap_shape` dispatch of lines
149-171 is commented out (its `gamma = beta = 0` initialization is dead),
so the live path is lines 172-180. -/
def SPADE.forward (m : SPADE) (x segmap : Tensor4)
    (other_channels : Option Tensor4 := none) : Option Tensor4 := do
  -- Part 1. generate parameter-free normalized activations
  let normalized := m.param_free_norm x
  -- Part 2. produce scaling and bias conditioned on semantic map
  let segmap ← interpolate_nearest segmap x.h x.w
  let all_layers ←
    match other_channels with
    | none => pure segmap
    | some oc => catChannels oc segmap
  let actv ← m.mlp_shared all_layers
  let gamma ← m.mlp_gamma actv
  let beta ← m.mlp_beta actv
  -- apply scale and bias: out = normalized * (1 + gamma) + beta
  let t ← ewMul normalized (scalarAdd 1 gamma)
  ewAdd t beta

/-- C1's specification composition, written from the claim's words: with
`s` the segmap resized to `x`'s spatial size by nearest-neighbor
interpolation, `actv = mlp_shared(s)`, `gamma = mlp_gamma(actv)`,
`beta = mlp_beta(actv)`, the layer returns
`param_free_norm(x) * (1 + gamma) + beta`. -/
def SPADE.forward_spec (m : SPADE) (x segmap : Tensor4) : Option Tensor4 := do
  let s ← interpolate_nearest segmap x.h x.w
  let actv ← m.mlp_shared s
  let gamma ← m.mlp_gamma actv
  let beta ← m.mlp_beta actv
  let t ← ewMul (m.param_free_norm x) (scalarAdd 1 gamma)
  ewAdd t beta

/-- The gamma field as computed inside `forward` (lines 140, 172, 173): the
segmap resized to `x`'s spatial size, through `mlp_shared`, then
`mlp_gamma`.  The activation tensor `x` enters only via `x.size()[2:]`. -/
def SPADE.gammaField (m : SPADE) (x segmap : Tensor4) : Option Tensor4 := do
  let s ← interpolate_nearest segmap x.h x.w
  let actv ← m.mlp_shared s
  m.mlp_gamma actv

/-- The beta field as computed inside `forward` (lines 140, 172, 174). -/
def SPADE.betaField (m : SPADE) (x segmap : Tensor4) : Option Tensor4 := do
  let s ← interpolate_nearest segmap x.h x.w
  let actv ← m.mlp_shared s
  m.mlp_beta actv

/-- A concrete SPADE module for exercising the theorems:
`norm_nc = label_nc = 1`, `ks = 1` (so `pw = 0`), identity parameter-free
stage, zero weights. -/
def spadeTest : SPADE :=
  { norm_nc := 1, label_nc := 1, ks := 1,
    param_free_norm := id,
    w_shared := fun _ _ _ _ => 0, b_shared := fun _ => 0,
    w_gamma := fun _ _ _ _ => 0, b_gamma := fun _ => 0,
    w_beta := fun _ _ _ _ => 0, b_beta := fun _ => 0 }

/-- A 1×1×1×1 tensor holding `q`. -/
def t1111 (q : ℚ) : Tensor4 :=
  ⟨1, 1, 1, 1, fun _ _ _ _ => q⟩

/-! ## Theorems -/

example : add_norm_layer "spectralnone" ⟨some 4, 4, true, false⟩ =
    .plain ⟨some 4, 4, true, true⟩ := by decide

example : add_norm_layer "instance" ⟨some 4, 4, true, false⟩ =
    .plain ⟨some 4, 4, true, false⟩ := by decide

example : add_norm_layer "spectralbatch" ⟨some 4, 7, true, false⟩ =
    .sequentialWith ⟨some 4, 7, false, true⟩ (.batchNorm2d 4 true) := by decide

example : add_norm_layer "spectralfoo" ⟨some 4, 7, true, false⟩ =
    .valueError "foo" := by decide

/-- C5, counterexample: for `norm_type = "spectralnone"` the remainder after
`'spectral'` is `"none"`, which is non-empty and is none of `'batch'`,
`'sync_batch'`, `'instance'`, so the claim says a `ValueError` is raised;
but `add_norm_layer` returns the spectral-normalized layer alone. -/
theorem add_norm_layer_spectralnone_no_error :
    (pyStartsWith "spectralnone" "spectral" = true ∧
      pyDrop "spectralnone" 8 ≠ "" ∧
      pyDrop "spectralnone" 8 ≠ "batch" ∧
      pyDrop "spectralnone" 8 ≠ "sync_batch" ∧
      pyDrop "spectralnone" 8 ≠ "instance") ∧
    add_norm_layer "spectralnone" ⟨some 4, 4, true, false⟩ =
      .plain ⟨some 4, 4, true, true⟩ := by
  decide

/-- C5 (amended): `add_norm_layer` raises `ValueError` iff `norm_type` starts
with `'spectral'` and the remainder after `'spectral'` is non-empty, is not
the string `'none'`, and is none of `'batch'`, `'sync_batch'`, `'instance'`;
when the remainder is one of those three it deletes the wrapped layer's bias
and returns a `Sequential` of the spectral-normalized layer and the
corresponding normalization layer; when the remainder is empty (or `'none'`)
it returns the spectral-normalized layer alone. -/
theorem add_norm_layer_cases (norm_type : String) (layer : Layer) :
    ((∃ s, add_norm_layer norm_type layer = .valueError s) ↔
      (pyStartsWith norm_type "spectral" = true ∧
        pyDrop norm_type 8 ≠ "none" ∧
        pyDrop norm_type 8 ≠ "" ∧
        pyDrop norm_type 8 ≠ "batch" ∧
        pyDrop norm_type 8 ≠ "sync_batch" ∧
        pyDrop norm_type 8 ≠ "instance")) ∧
    (pyStartsWith norm_type "spectral" = true →
      (pyDrop norm_type 8 = "batch" →
        add_norm_layer norm_type layer =
          .sequentialWith { layer with spectral := true, bias := false }
            (.batchNorm2d (get_out_channel layer) true)) ∧
      (pyDrop norm_type 8 = "sync_batch" →
        add_norm_layer norm_type layer =
          .sequentialWith { layer with spectral := true, bias := false }
            (.syncBatchNorm2d (get_out_channel layer) true)) ∧
      (pyDrop norm_type 8 = "instance" →
        add_norm_layer norm_type layer =
          .sequentialWith { layer with spectral := true, bias := false }
            (.instanceNorm2d (get_out_channel layer) false)) ∧
      ((pyDrop norm_type 8 = "" ∨ pyDrop norm_type 8 = "none") →
        add_norm_layer norm_type layer = .plain { layer with spectral := true })) := by
  have hlen : ((pyDrop norm_type 8).length = 0) ↔ pyDrop norm_type 8 = "" := by
    cases hd : pyDrop norm_type 8 with
    | mk data => cases data <;> simp [String.length, String.ext_iff]
  have hbias : (if layer.bias then { layer with spectral := true, bias := false }
      else { layer with spectral := true }) = { layer with spectral := true, bias := false } := by
    cases layer with
    | mk o w b s => cases b <;> rfl
  have hout : get_out_channel { layer with spectral := true, bias := false }
      = get_out_channel layer := by
    cases layer with
    | mk o w b s => rfl
  simp only [add_norm_layer]
  cases hs : pyStartsWith norm_type "spectral"
  · simp
  · simp only [if_true, hbias, hout, eq_self_iff_true, true_and, if_pos]
    by_cases h1 : pyDrop norm_type 8 = "none"
    · simp [h1]
    · by_cases h2 : pyDrop norm_type 8 = ""
      · simp [h1, h2, hlen]
      · have hc : ¬(pyDrop norm_type 8 = "none" ∨ (pyDrop norm_type 8).length = 0) := by
          rintro (h | h)
          · exact h1 h
          · exact h2 (hlen.mp h)
        rw [if_neg hc]
        by_cases h3 : pyDrop norm_type 8 = "batch"
        · simp [h3, hbias, hout]
        · by_cases h4 : pyDrop norm_type 8 = "sync_batch"
          · simp [h3, h4, hbias, hout]
          · by_cases h5 : pyDrop norm_type 8 = "instance"
            · simp [h3, h4, h5, hbias, hout]
            · simp [h1, h2, h3, h4, h5, hbias, hout]

/-- C5, witness for the amended theorem at a concrete input. -/
theorem add_norm_layer_cases_witness :
    add_norm_layer "spectralsync_batch" ⟨none, 9, true, false⟩ =
      .sequentialWith ⟨none, 9, false, true⟩ (.syncBatchNorm2d 9 true) := by
  have h := (add_norm_layer_cases "spectralsync_batch" ⟨none, 9, true, false⟩).2
    (by decide)
  exact h.2.1 (by decide)

/-- C6: for every `norm_type` not starting with `'spectral'` — including
`'instance'`, `'batch'`, `'sync_batch'` — `add_norm_layer` returns its
argument layer unchanged: `subnorm_type` stays `'none'`, no bias removal
occurs, and no normalization layer is appended, so the wrapping branches are
reachable only for spectral norm types. -/
theorem add_norm_layer_nonspectral (norm_type : String) (layer : Layer)
    (h : pyStartsWith norm_type "spectral" = false) :
    add_norm_layer norm_type layer = .plain layer := by
  unfold add_norm_layer
  simp [h]

/-- C6, witness: the documented default `'instance'` (and `'batch'`,
`'sync_batch'`) leave the layer untouched. -/
theorem add_norm_layer_nonspectral_witness :
    add_norm_layer "instance" ⟨some 4, 4, true, false⟩ =
        .plain ⟨some 4, 4, true, false⟩ ∧
      add_norm_layer "batch" ⟨some 4, 4, true, false⟩ =
        .plain ⟨some 4, 4, true, false⟩ ∧
      add_norm_layer "sync_batch" ⟨some 4, 4, true, false⟩ =
        .plain ⟨some 4, 4, true, false⟩ :=
  ⟨add_norm_layer_nonspectral "instance" ⟨some 4, 4, true, false⟩ (by decide),
   add_norm_layer_nonspectral "batch" ⟨some 4, 4, true, false⟩ (by decide),
   add_norm_layer_nonspectral "sync_batch" ⟨some 4, 4, true, false⟩ (by decide)⟩

example : paths_match "a/b/img_01.png" "c/img_01.jpg" = true := by decide

example : paths_match "a/img_01.png" "a/img_02.png" = false := by decide

example : paths_match "x/.bashrc" "y/.bashrc" = true := by decide

example : natural_sort ["img10", "img2", "img1"] = ["img1", "img2", "img10"] := by
  decide

/-- C7: with `no_pairing_check` false, `initialize` succeeds iff every
index-aligned triple from the sorted, truncated label/image/input lists
passes `paths_match` against the label path (both label-image and
label-input); with `no_pairing_check` true it succeeds regardless.
`paths_match` holds exactly when the basenames with extensions removed are
equal strings. -/
theorem dsInit_pairing_check (opt : Opt) (l i p n : List String) :
    (((dsInit opt l i p n).isOk = true) ↔
      (opt.no_pairing_check = true ∨
        ∀ t ∈ ((natural_sort l).take opt.max_dataset_size).zip
            (((natural_sort i).take opt.max_dataset_size).zip
              ((natural_sort p).take opt.max_dataset_size)),
          paths_match t.1 t.2.1 = true ∧ paths_match t.1 t.2.2 = true)) ∧
    (∀ p1 p2, paths_match p1 p2 = true ↔
      splitext_root (basename p1) = splitext_root (basename p2)) := by
  have isOk_ite : ∀ (C : Prop) [Decidable C] (R : DatasetState) (s : String),
      (((if C then Except.ok R else Except.error s) : Except String DatasetState).isOk
        = true) ↔ C := by
    intro C _ R s
    split_ifs with h <;> simp [Except.isOk, Except.toBool, h]
  constructor
  · simp only [dsInit, isOk_ite]
    constructor
    · rintro (h | h)
      · exact Or.inl h
      · refine Or.inr fun t ht => ?_
        have := List.all_eq_true.mp h t ht
        simpa [Bool.and_eq_true] using this
    · rintro (h | h)
      · exact Or.inl h
      · refine Or.inr (List.all_eq_true.mpr fun t ht => ?_)
        rw [Bool.and_eq_true]
        exact ⟨(h t ht).1, (h t ht).2⟩
  · intro p1 p2
    simp [paths_match, beq_iff_eq]

/-- C7, witness: a concrete paired dataset passes the pairing check. -/
theorem dsInit_pairing_check_witness :
    ((dsInit ⟨false, 10, true, false, 0⟩ ["b/x1.png", "b/x0.png"]
        ["i/x1.jpg", "i/x0.jpg"] ["p/x1.tif", "p/x0.tif"] []).isOk = true) ∧
    paths_match "b/x1.png" "i/x1.jpg" = true :=
  ⟨((dsInit_pairing_check ⟨false, 10, true, false, 0⟩ ["b/x1.png", "b/x0.png"]
      ["i/x1.jpg", "i/x0.jpg"] ["p/x1.tif", "p/x0.tif"] []).1).mpr
    (Or.inr (by decide)),
   ((dsInit_pairing_check ⟨false, 10, true, false, 0⟩ ["b/x1.png", "b/x0.png"]
      ["i/x1.jpg", "i/x0.jpg"] ["p/x1.tif", "p/x0.tif"] []).2 "b/x1.png"
      "i/x1.jpg").mpr (by decide)⟩

/-- C8: after a successful `initialize`, the stored `label_paths`,
`image_paths`, `input_paths` are the natural-sorted lists truncated to at
most `max_dataset_size` entries, `instance_paths` is truncated likewise and
sorted only when `no_instance` is false, `dataset_size` is the length of
`label_paths`, and `__len__` returns `dataset_size`. -/
theorem dsInit_state (opt : Opt) (l i p n : List String) (st : DatasetState)
    (h : dsInit opt l i p n = .ok st) :
    st.label_paths = (natural_sort l).take opt.max_dataset_size ∧
    st.image_paths = (natural_sort i).take opt.max_dataset_size ∧
    st.input_paths = (natural_sort p).take opt.max_dataset_size ∧
    st.instance_paths =
      (if ¬opt.no_instance then natural_sort n else n).take opt.max_dataset_size ∧
    st.dataset_size = st.label_paths.length ∧
    dataset_len st = st.dataset_size := by
  simp only [dsInit] at h
  split_ifs at h with hc hni
  · rw [Except.ok.injEq] at h
    subst h
    simp [dataset_len, hni]
  · rw [Except.ok.injEq] at h
    subst h
    simp [dataset_len, hni]

/-- C8, witness: a concrete successful `initialize` call. -/
theorem dsInit_state_witness :
    (DatasetState.label_paths ⟨⟨true, 1, false, false, 3⟩, ["a2"], ["b2"], ["c2"], ["d"], 1⟩
        = (natural_sort ["a2", "a10"]).take 1) ∧
    (DatasetState.image_paths ⟨⟨true, 1, false, false, 3⟩, ["a2"], ["b2"], ["c2"], ["d"], 1⟩
        = (natural_sort ["b2", "b10"]).take 1) ∧
    (DatasetState.input_paths ⟨⟨true, 1, false, false, 3⟩, ["a2"], ["b2"], ["c2"], ["d"], 1⟩
        = (natural_sort ["c2", "c10"]).take 1) ∧
    (DatasetState.instance_paths ⟨⟨true, 1, false, false, 3⟩, ["a2"], ["b2"], ["c2"], ["d"], 1⟩
        = (if ¬(false : Bool) then natural_sort ["d"] else ["d"]).take 1) ∧
    (DatasetState.dataset_size ⟨⟨true, 1, false, false, 3⟩, ["a2"], ["b2"], ["c2"], ["d"], 1⟩
        = (DatasetState.label_paths
            ⟨⟨true, 1, false, false, 3⟩, ["a2"], ["b2"], ["c2"], ["d"], 1⟩).length) ∧
    dataset_len ⟨⟨true, 1, false, false, 3⟩, ["a2"], ["b2"], ["c2"], ["d"], 1⟩
        = DatasetState.dataset_size
            ⟨⟨true, 1, false, false, 3⟩, ["a2"], ["b2"], ["c2"], ["d"], 1⟩ :=
  dsInit_state ⟨true, 1, false, false, 3⟩ ["a2", "a10"] ["b2", "b10"]
    ["c2", "c10"] ["d"] ⟨⟨true, 1, false, false, 3⟩, ["a2"], ["b2"], ["c2"], ["d"], 1⟩
    (by rfl)

/-! ## Theorems for __getitem__ and the rescaling map -/
theorem foldl_min_le_init {α : Type*} [LinearOrder α] (l : List α) (a : α) :
    l.foldl min a ≤ a := by
  induction l generalizing a with
  | nil => exact le_refl a
  | cons b t ih => exact le_trans (ih (min a b)) (min_le_left a b)

theorem foldl_min_le_mem {α : Type*} [LinearOrder α] (l : List α) (a v : α)
    (hv : v ∈ l) : l.foldl min a ≤ v := by
  induction l generalizing a with
  | nil => cases hv
  | cons b t ih =>
    rcases List.mem_cons.mp hv with rfl | hv
    · exact le_trans (foldl_min_le_init t (min a v)) (min_le_right a v)
    · exact ih (min a b) hv

theorem init_le_foldl_max {α : Type*} [LinearOrder α] (l : List α) (a : α) :
    a ≤ l.foldl max a := by
  induction l generalizing a with
  | nil => exact le_refl a
  | cons b t ih => exact le_trans (le_max_left a b) (ih (max a b))

theorem mem_le_foldl_max {α : Type*} [LinearOrder α] (l : List α) (a v : α)
    (hv : v ∈ l) : v ≤ l.foldl max a := by
  induction l generalizing a with
  | nil => cases hv
  | cons b t ih =>
    rcases List.mem_cons.mp hv with rfl | hv
    · exact le_trans (le_max_right a v) (init_le_foldl_max t (max a v))
    · exact ih (max a b) hv

theorem foldl_min_mem {α : Type*} [LinearOrder α] (l : List α) (a : α) :
    l.foldl min a = a ∨ l.foldl min a ∈ l := by
  induction l generalizing a with
  | nil => exact Or.inl rfl
  | cons b t ih =>
    rcases ih (min a b) with h | h
    · rcases min_choice a b with hm | hm
      · exact Or.inl (h.trans hm)
      · exact Or.inr (List.mem_cons.mpr (Or.inl (h.trans hm)))
    · exact Or.inr (List.mem_cons.mpr (Or.inr h))

theorem foldl_max_mem {α : Type*} [LinearOrder α] (l : List α) (a : α) :
    l.foldl max a = a ∨ l.foldl max a ∈ l := by
  induction l generalizing a with
  | nil => exact Or.inl rfl
  | cons b t ih =>
    rcases ih (max a b) with h | h
    · rcases max_choice a b with hm | hm
      · exact Or.inl (h.trans hm)
      · exact Or.inr (List.mem_cons.mpr (Or.inl (h.trans hm)))
    · exact Or.inr (List.mem_cons.mpr (Or.inr h))

theorem npMin_le_mem (img : List Nat) (v : Nat) (hv : v ∈ img) :
    npMin img ≤ v := by
  cases img with
  | nil => cases hv
  | cons a t =>
    rcases List.mem_cons.mp hv with rfl | hv
    · exact foldl_min_le_init t v
    · exact foldl_min_le_mem t a v hv

theorem mem_le_npMax (img : List Nat) (v : Nat) (hv : v ∈ img) :
    v ≤ npMax img := by
  cases img with
  | nil => cases hv
  | cons a t =>
    rcases List.mem_cons.mp hv with rfl | hv
    · exact init_le_foldl_max t v
    · exact mem_le_foldl_max t a v hv

theorem npMin_mem (img : List Nat) (hne : img ≠ []) : npMin img ∈ img := by
  cases img with
  | nil => exact absurd rfl hne
  | cons a t =>
    rcases foldl_min_mem t a with h | h
    · exact List.mem_cons.mpr (Or.inl h)
    · exact List.mem_cons.mpr (Or.inr h)

theorem npMax_mem (img : List Nat) (hne : img ≠ []) : npMax img ∈ img := by
  cases img with
  | nil => exact absurd rfl hne
  | cons a t =>
    rcases foldl_max_mem t a with h | h
    · exact List.mem_cons.mpr (Or.inl h)
    · exact List.mem_cons.mpr (Or.inr h)

/-- C9, counterexample: a uint8 image (`w = 8`) with pixels `[0, 200]` is
non-empty, within the dtype range, and has `max > min`, yet numpy's
`2 * (image - image.min())` wraps (`max - min = 200`, `2·200 = 400 ≡ 144
(mod 256)`), so the maximum pixel rescales to `144/200 - 1 = -7/25`, not to
`1` as the claim states — and no pixel attains `1`. -/
theorem rescale_wrap_counterexample :
    ([0, 200] : List Nat) ≠ [] ∧
    (∀ v ∈ ([0, 200] : List Nat), v < 2 ^ 8) ∧
    npMin [0, 200] < npMax [0, 200] ∧
    rescale 8 [0, 200] = [-1, -7/25] ∧
    ((2 * (npMax [0, 200] - npMin [0, 200]) % 2 ^ 8 : Nat) : ℚ)
        / ((npMax [0, 200] : ℚ) - (npMin [0, 200] : ℚ)) - 1 ≠ 1 ∧
    (1 : ℚ) ∉ rescale 8 [0, 200] := by
  have hmn : npMin [0, 200] = 0 := by decide
  have hmx : npMax [0, 200] = 200 := by decide
  refine ⟨by decide, by decide, by decide, ?_, ?_, ?_⟩
  · unfold rescale
    rw [hmn, hmx]
    norm_num
  · rw [hmn, hmx]
    norm_num
  · unfold rescale
    rw [hmn, hmx]
    norm_num

/-- C9 (amended): the per-pixel map of lines 97/116 is
`v ↦ ((2·(v − min)) mod 2^w)/(max − min) − 1`, `w` being the bit width of
the image's unsigned dtype (the doubling is evaluated in that dtype and
wraps); for every image with pixels in range and `max > min`, every
rescaled value lies in `[-1, 1]` and the minimum pixel maps exactly to `-1`
(attained); the maximum pixel maps exactly to `1` if and only if
`2·(max − min) < 2^w` (then `1` is attained), and under wraparound
(`2^w ≤ 2·(max − min)`) it maps to `1 − 2^w/(max − min) < 1` instead. -/
theorem rescale_bounds (w : Nat) (img : List Nat) (hne : img ≠ [])
    (hbits : ∀ v ∈ img, v < 2 ^ w) (hlt : npMin img < npMax img) :
    (∀ q ∈ rescale w img, -1 ≤ q ∧ q ≤ 1) ∧
    ((2 * (npMin img - npMin img) % 2 ^ w : Nat) : ℚ)
        / ((npMax img : ℚ) - (npMin img : ℚ)) - 1 = -1 ∧
    (-1 : ℚ) ∈ rescale w img ∧
    (((2 * (npMax img - npMin img) % 2 ^ w : Nat) : ℚ)
        / ((npMax img : ℚ) - (npMin img : ℚ)) - 1 = 1 ↔
      2 * (npMax img - npMin img) < 2 ^ w) ∧
    (2 * (npMax img - npMin img) < 2 ^ w → (1 : ℚ) ∈ rescale w img) ∧
    (2 ^ w ≤ 2 * (npMax img - npMin img) →
      ((2 * (npMax img - npMin img) % 2 ^ w : Nat) : ℚ)
          / ((npMax img : ℚ) - (npMin img : ℚ)) - 1
        = 1 - (2 ^ w : ℚ) / ((npMax img : ℚ) - (npMin img : ℚ)) ∧
      1 - (2 ^ w : ℚ) / ((npMax img : ℚ) - (npMin img : ℚ)) < 1) := by
  have hle : npMin img ≤ npMax img := hlt.le
  have hdQ : (0 : ℚ) < (npMax img : ℚ) - (npMin img : ℚ) :=
    sub_pos.mpr (by exact_mod_cast hlt)
  have key : ∀ v ∈ img,
      -1 ≤ ((2 * (v - npMin img) % 2 ^ w : Nat) : ℚ)
          / ((npMax img : ℚ) - (npMin img : ℚ)) - 1 ∧
      ((2 * (v - npMin img) % 2 ^ w : Nat) : ℚ)
          / ((npMax img : ℚ) - (npMin img : ℚ)) - 1 ≤ 1 := by
    intro v hv
    have hvmx : v ≤ npMax img := mem_le_npMax img v hv
    have hnum_le : 2 * (v - npMin img) % 2 ^ w ≤ 2 * (npMax img - npMin img) := by
      calc 2 * (v - npMin img) % 2 ^ w ≤ 2 * (v - npMin img) := Nat.mod_le _ _
        _ ≤ 2 * (npMax img - npMin img) := by omega
    constructor
    · have h0 : (0 : ℚ) ≤ ((2 * (v - npMin img) % 2 ^ w : Nat) : ℚ)
          / ((npMax img : ℚ) - (npMin img : ℚ)) :=
        div_nonneg (by positivity) hdQ.le
      linarith
    · have h2 : ((2 * (v - npMin img) % 2 ^ w : Nat) : ℚ)
          / ((npMax img : ℚ) - (npMin img : ℚ)) ≤ 2 := by
        rw [div_le_iff₀ hdQ]
        calc ((2 * (v - npMin img) % 2 ^ w : Nat) : ℚ)
            ≤ ((2 * (npMax img - npMin img) : Nat) : ℚ) := by exact_mod_cast hnum_le
          _ = 2 * ((npMax img : ℚ) - (npMin img : ℚ)) := by
              push_cast [Nat.cast_sub hle]
              ring
      linarith
  have hminq : ((2 * (npMin img - npMin img) % 2 ^ w : Nat) : ℚ)
      / ((npMax img : ℚ) - (npMin img : ℚ)) - 1 = -1 := by
    simp [Nat.sub_self]
  have hmaxq_nowrap : 2 * (npMax img - npMin img) < 2 ^ w →
      ((2 * (npMax img - npMin img) % 2 ^ w : Nat) : ℚ)
        / ((npMax img : ℚ) - (npMin img : ℚ)) - 1 = 1 := by
    intro hnw
    rw [Nat.mod_eq_of_lt hnw]
    have hc : ((2 * (npMax img - npMin img) : Nat) : ℚ)
        = 2 * ((npMax img : ℚ) - (npMin img : ℚ)) := by
      push_cast [Nat.cast_sub hle]
      ring
    rw [hc, mul_div_assoc, div_self hdQ.ne']
    ring
  have hwle : 2 * (npMax img - npMin img) < 2 * 2 ^ w := by
    have := hbits (npMax img) (npMax_mem img hne)
    omega
  have hmaxq_wrap : 2 ^ w ≤ 2 * (npMax img - npMin img) →
      ((2 * (npMax img - npMin img) % 2 ^ w : Nat) : ℚ)
          / ((npMax img : ℚ) - (npMin img : ℚ)) - 1
        = 1 - (2 ^ w : ℚ) / ((npMax img : ℚ) - (npMin img : ℚ)) := by
    intro hw2
    have hmod : 2 * (npMax img - npMin img) % 2 ^ w
        = 2 * (npMax img - npMin img) - 2 ^ w := by
      rw [Nat.mod_eq_sub_mod hw2, Nat.mod_eq_of_lt (by omega)]
    rw [hmod]
    have hc : ((2 * (npMax img - npMin img) - 2 ^ w : Nat) : ℚ)
        = 2 * ((npMax img : ℚ) - (npMin img : ℚ)) - (2 ^ w : ℚ) := by
      push_cast [Nat.cast_sub hw2, Nat.cast_sub hle]
      ring
    rw [hc, sub_div, mul_div_assoc, div_self hdQ.ne']
    ring
  have hiff : ((2 * (npMax img - npMin img) % 2 ^ w : Nat) : ℚ)
      / ((npMax img : ℚ) - (npMin img : ℚ)) - 1 = 1 ↔
      2 * (npMax img - npMin img) < 2 ^ w := by
    by_cases hnw : 2 * (npMax img - npMin img) < 2 ^ w
    · simp [hmaxq_nowrap hnw, hnw]
    · rw [hmaxq_wrap (le_of_not_lt hnw)]
      simp only [hnw, iff_false]
      intro heq
      have hpos : (0 : ℚ) < (2 ^ w : ℚ) / ((npMax img : ℚ) - (npMin img : ℚ)) :=
        div_pos (by positivity) hdQ
      linarith
  refine ⟨?_, hminq, ?_, hiff, ?_,
    fun hw2 => ⟨hmaxq_wrap hw2, sub_lt_self 1 (div_pos (by positivity) hdQ)⟩⟩
  · intro q hq
    unfold rescale at hq
    rcases List.mem_map.mp hq with ⟨v, hv, rfl⟩
    exact key v hv
  · unfold rescale
    exact List.mem_map.mpr ⟨npMin img, npMin_mem img hne, hminq⟩
  · intro hnw
    unfold rescale
    exact List.mem_map.mpr ⟨npMax img, npMax_mem img hne, hmaxq_nowrap hnw⟩

/-- C9, witness for the amended theorem: a no-wraparound uint8 image where
`-1` and `1` are both attained, and a wrapping uint8 image where the
maximum instead maps to `1 − 2^8/(max − min)`. -/
theorem rescale_bounds_witness :
    ((∀ q ∈ rescale 8 [0, 100, 50], -1 ≤ q ∧ q ≤ 1) ∧
      (-1 : ℚ) ∈ rescale 8 [0, 100, 50] ∧ (1 : ℚ) ∈ rescale 8 [0, 100, 50]) ∧
    ((2 * (npMax [0, 200] - npMin [0, 200]) % 2 ^ 8 : Nat) : ℚ)
        / ((npMax [0, 200] : ℚ) - (npMin [0, 200] : ℚ)) - 1
      = 1 - (2 ^ 8 : ℚ) / ((npMax [0, 200] : ℚ) - (npMin [0, 200] : ℚ)) := by
  have h1 := rescale_bounds 8 [0, 100, 50] (by decide) (by decide) (by decide)
  have h2 := rescale_bounds 8 [0, 200] (by decide) (by decide) (by decide)
  exact ⟨⟨h1.1, h1.2.2.1, h1.2.2.2.2.1 (by decide)⟩,
    (h2.2.2.2.2.2 (by decide)).1⟩

/-- C10: every `__getitem__` call first sets `self.opt.no_flip` to `True`,
mutating the shared options object (so the change persists in the returned
state, is passed to the transforms, and is still set on any later call),
and modifies no other field of `opt`, none of the stored path lists, and not
`dataset_size`. -/
theorem getitem_frame (st : DatasetState) (index : Nat) (ext : GetItemExt) :
    (getitem st index ext).1 = { st with opt := { st.opt with no_flip := true } } ∧
    (getitem st index ext).1.opt.no_flip = true ∧
    (getitem st index ext).1.opt.no_pairing_check = st.opt.no_pairing_check ∧
    (getitem st index ext).1.opt.max_dataset_size = st.opt.max_dataset_size ∧
    (getitem st index ext).1.opt.no_instance = st.opt.no_instance ∧
    (getitem st index ext).1.opt.label_nc = st.opt.label_nc ∧
    (getitem st index ext).1.label_paths = st.label_paths ∧
    (getitem st index ext).1.image_paths = st.image_paths ∧
    (getitem st index ext).1.input_paths = st.input_paths ∧
    (getitem st index ext).1.instance_paths = st.instance_paths ∧
    (getitem st index ext).1.dataset_size = st.dataset_size ∧
    (getitem (getitem st index ext).1 index ext).1.opt.no_flip = true :=
  ⟨rfl, rfl, rfl, rfl, rfl, rfl, rfl, rfl, rfl, rfl, rfl, rfl⟩

example : spade_config "spadeinstance3x3" 64 = .ok (.instanceNorm2d 64 false) 3 := by
  decide

example : spade_config "spadesyncbatch3x3" 7 = .ok (.syncBatchNorm2d 7 false) 3 := by
  decide

example : spade_config "spadebatch5x5" 7 = .ok (.batchNorm2d 7 false) 5 := by decide

example : spade_config "spadefoo3x3" 7 = .valueError "foo" := by decide

example : spade_config "spade" 7 = .attributeError := by decide

example : spade_config "batch3x3" 7 = .assertError := by decide

/-- C4: the configuration step requires `config_text` to start with
`'spade'` (asserting otherwise); given the regex parse of
`spade(norm)(ks)`, it raises `ValueError` exactly when the parsed norm type
is not one of `'instance'`, `'syncbatch'`, `'batch'`, and for each of those
three it selects the corresponding affine-free normalization
(`InstanceNorm2d`, `SynchronizedBatchNorm2d`, `BatchNorm2d`, all with
`affine=False`). -/
theorem spade_config_cases (config_text : String) (norm_nc : Nat) :
    (pyStartsWith config_text "spade" = false →
      spade_config config_text norm_nc = .assertError) ∧
    ((∃ s, spade_config config_text norm_nc = .valueError s) ↔
      (pyStartsWith config_text "spade" = true ∧
        ∃ s ks, spadeSearch config_text.toList = some (s, ks) ∧
          s ≠ "instance" ∧ s ≠ "syncbatch" ∧ s ≠ "batch")) ∧
    (∀ ks, pyStartsWith config_text "spade" = true →
      (spadeSearch config_text.toList = some ("instance", ks) →
        spade_config config_text norm_nc = .ok (.instanceNorm2d norm_nc false) ks) ∧
      (spadeSearch config_text.toList = some ("syncbatch", ks) →
        spade_config config_text norm_nc = .ok (.syncBatchNorm2d norm_nc false) ks) ∧
      (spadeSearch config_text.toList = some ("batch", ks) →
        spade_config config_text norm_nc = .ok (.batchNorm2d norm_nc false) ks)) := by
  refine ⟨?_, ?_, ?_⟩
  · intro h
    unfold spade_config
    rw [if_pos]
    rw [h]
    decide
  · unfold spade_config
    cases hs : pyStartsWith config_text "spade"
    · simp
    · simp only [Bool.not_eq_true, if_neg, Bool.true_eq_false, not_false_iff,
        reduceIte, true_and]
      cases hm : spadeSearch config_text.toList with
      | none => simp
      | some r =>
        obtain ⟨s, ks⟩ := r
        by_cases h1 : s = "instance"
        · simp [h1]
        · by_cases h2 : s = "syncbatch"
          · simp [h2]
          · by_cases h3 : s = "batch"
            · simp [h3]
            · simp [h1, h2, h3]
  · intro ks hs
    refine ⟨?_, ?_, ?_⟩ <;> intro hm <;> unfold spade_config <;> rw [hs, hm] <;>
      simp

/-- C4, witness: concrete configuration strings exercising the assert, the
three recognized norm types, and the `ValueError` case. -/
theorem spade_config_cases_witness :
    spade_config "batchinstance3x3" 4 = .assertError ∧
    spade_config "spadeinstance5x5" 4 = .ok (.instanceNorm2d 4 false) 5 ∧
    (∃ s, spade_config "spadenew3x3" 4 = .valueError s) :=
  ⟨(spade_config_cases "batchinstance3x3" 4).1 (by decide),
   ((spade_config_cases "spadeinstance5x5" 4).2.2 5 (by decide)).1 (by decide),
   ((spade_config_cases "spadenew3x3" 4).2.1).mpr
     ⟨by decide, "new", 3, by decide, by decide, by decide, by decide⟩⟩

/-! ## Theorems about SPADE.forward -/
/-- C1: with `other_channels` empty, `SPADE.forward` is exactly the
composition of the parameter-free normalization stage with the affine
modulation `param_free_norm(x) * (1 + gamma) + beta`, where `s` is the
segmap resized to `x`'s spatial size by nearest-neighbor interpolation,
`actv = mlp_shared(s)`, `gamma = mlp_gamma(actv)`, `beta = mlp_beta(actv)`. -/
theorem spade_forward_eq_spec (m : SPADE) (x segmap : Tensor4) :
    m.forward x segmap none = m.forward_spec x segmap :=
  rfl

/-- C2: for two activation tensors of the same shape and a fixed segmap
(empty `other_channels`), the gamma and beta fields computed inside
`forward` coincide — they depend only on the segmap (and the module's
parameters), never on the activation values — and `forward` is exactly the
modulation arithmetic applied to those fields. -/
theorem spade_gamma_beta_independent_of_x (m : SPADE) (x1 x2 segmap : Tensor4)
    (hn : x1.n = x2.n) (hc : x1.c = x2.c) (hh : x1.h = x2.h) (hw : x1.w = x2.w) :
    m.gammaField x1 segmap = m.gammaField x2 segmap ∧
    m.betaField x1 segmap = m.betaField x2 segmap ∧
    (∀ x, m.forward x segmap none =
      (m.gammaField x segmap).bind fun gamma =>
        (m.betaField x segmap).bind fun beta =>
          (ewMul (m.param_free_norm x) (scalarAdd 1 gamma)).bind fun t =>
            ewAdd t beta) := by
  refine ⟨?_, ?_, ?_⟩
  · unfold SPADE.gammaField
    rw [hh, hw]
  · unfold SPADE.betaField
    rw [hh, hw]
  · intro x
    unfold SPADE.forward SPADE.gammaField SPADE.betaField
    cases his : interpolate_nearest segmap x.h x.w with
    | none => simp [his]
    | some s =>
      simp only [his, Option.some_bind]
      cases hsh : m.mlp_shared s with
      | none => simp [hsh]
      | some actv =>
        cases hg : m.mlp_gamma actv with
        | none => simp [hsh, hg]
        | some gamma =>
          cases hb : m.mlp_beta actv with
          | none => simp [hsh, hg, hb]
          | some beta => simp [hsh, hg, hb]

/-- C2, witness: concrete same-shape activations with different values give
identical gamma and beta fields. -/
theorem spade_gamma_beta_independent_of_x_witness :
    spadeTest.gammaField (t1111 5) (t1111 1) =
        spadeTest.gammaField (t1111 7) (t1111 1) ∧
      spadeTest.betaField (t1111 5) (t1111 1) =
        spadeTest.betaField (t1111 7) (t1111 1) :=
  ⟨(spade_gamma_beta_independent_of_x spadeTest (t1111 5) (t1111 7) (t1111 1)
      rfl rfl rfl rfl).1,
   (spade_gamma_beta_independent_of_x spadeTest (t1111 5) (t1111 7) (t1111 1)
      rfl rfl rfl rfl).2.1⟩

theorem interpolate_shape (t : Tensor4) (oh ow : Nat)
    (h1 : 0 < t.h) (h2 : 0 < t.w) :
    ∃ s, interpolate_nearest t oh ow = some s ∧
      s.n = t.n ∧ s.c = t.c ∧ s.h = oh ∧ s.w = ow := by
  unfold interpolate_nearest
  rw [dif_pos (⟨h1, h2⟩ : 0 < t.h ∧ 0 < t.w)]
  exact ⟨_, rfl, rfl, rfl, rfl, rfl⟩

theorem convOutSize_odd (size k : Nat) (hk : k % 2 = 1) :
    convOutSize size k (k / 2) 1 = size := by
  obtain ⟨q, rfl⟩ : ∃ q, k = 2 * q + 1 := ⟨k / 2, by omega⟩
  have hq : (2 * q + 1) / 2 = q := by omega
  unfold convOutSize
  rw [hq]
  push_cast
  ring

theorem conv2d_shape (inC outC k : Nat)
    (weight : Fin outC → Fin inC → Fin k → Fin k → ℚ) (bias : Fin outC → ℚ)
    (t : Tensor4) (hc : t.c = inC) (hk : k % 2 = 1)
    (hh : 0 < t.h) (hw : 0 < t.w) :
    ∃ r, conv2d inC outC k weight bias (k / 2) 1 t = some r ∧
      r.n = t.n ∧ r.c = outC ∧ r.h = t.h ∧ r.w = t.w := by
  have hH := convOutSize_odd t.h k hk
  have hW := convOutSize_odd t.w k hk
  have hcond : t.c = inC ∧ 0 < convOutSize t.h k (k / 2) 1 ∧
      0 < convOutSize t.w k (k / 2) 1 :=
    ⟨hc, by rw [hH]; exact_mod_cast hh, by rw [hW]; exact_mod_cast hw⟩
  unfold conv2d
  rw [dif_pos hcond]
  refine ⟨_, rfl, rfl, rfl, ?_, ?_⟩
  · show (convOutSize t.h k (k / 2) 1).toNat = t.h
    rw [hH]
    exact Int.toNat_natCast t.h
  · show (convOutSize t.w k (k / 2) 1).toNat = t.w
    rw [hW]
    exact Int.toNat_natCast t.w

theorem mlp_shared_shape (m : SPADE) (t : Tensor4) (hc : t.c = m.label_nc)
    (hk : m.ks % 2 = 1) (hh : 0 < t.h) (hw : 0 < t.w) :
    ∃ r, m.mlp_shared t = some r ∧
      r.n = t.n ∧ r.c = nhidden ∧ r.h = t.h ∧ r.w = t.w := by
  obtain ⟨r, hr, h1, h2, h3, h4⟩ :=
    conv2d_shape m.label_nc nhidden m.ks m.w_shared m.b_shared t hc hk hh hw
  refine ⟨leakyReLU (2 / 10) r, ?_, h1, h2, h3, h4⟩
  unfold SPADE.mlp_shared
  rw [hr]
  rfl

/-- C3: for an odd kernel size, `x` with `norm_nc` channels, and a segmap
with `label_nc` channels (empty `other_channels`, spatially non-empty
tensors, the batch dimensions agreeing, the parameter-free stage
shape-preserving as the framework normalizations are), the gamma and beta
fields are per-pixel — `norm_nc` channels and exactly `x`'s spatial height
and width — and the output of `SPADE.forward` has the same shape as `x`. -/
theorem spade_shapes (m : SPADE) (x segmap : Tensor4)
    (hks : m.ks % 2 = 1) (hxc : x.c = m.norm_nc) (hsc : segmap.c = m.label_nc)
    (hsn : segmap.n = x.n) (hxh : 0 < x.h) (hxw : 0 < x.w)
    (hsh : 0 < segmap.h) (hsw : 0 < segmap.w)
    (hpf : (m.param_free_norm x).n = x.n ∧ (m.param_free_norm x).c = x.c ∧
      (m.param_free_norm x).h = x.h ∧ (m.param_free_norm x).w = x.w) :
    (∃ g, m.gammaField x segmap = some g ∧
      g.n = x.n ∧ g.c = m.norm_nc ∧ g.h = x.h ∧ g.w = x.w) ∧
    (∃ b, m.betaField x segmap = some b ∧
      b.n = x.n ∧ b.c = m.norm_nc ∧ b.h = x.h ∧ b.w = x.w) ∧
    (∃ out, m.forward x segmap none = some out ∧
      out.n = x.n ∧ out.c = x.c ∧ out.h = x.h ∧ out.w = x.w) := by
  obtain ⟨s, hs, hs1, hs2, hs3, hs4⟩ := interpolate_shape segmap x.h x.w hsh hsw
  obtain ⟨actv, ha, ha1, ha2, ha3, ha4⟩ :=
    mlp_shared_shape m s (by rw [hs2]; exact hsc) hks
      (by rw [hs3]; exact hxh) (by rw [hs4]; exact hxw)
  obtain ⟨g, hg, hg1, hg2, hg3, hg4⟩ :=
    conv2d_shape nhidden m.norm_nc m.ks m.w_gamma m.b_gamma actv ha2 hks
      (by rw [ha3, hs3]; exact hxh) (by rw [ha4, hs4]; exact hxw)
  obtain ⟨b, hb, hb1, hb2, hb3, hb4⟩ :=
    conv2d_shape nhidden m.norm_nc m.ks m.w_beta m.b_beta actv ha2 hks
      (by rw [ha3, hs3]; exact hxh) (by rw [ha4, hs4]; exact hxw)
  have hgn : g.n = x.n := by rw [hg1, ha1, hs1, hsn]
  have hgh : g.h = x.h := by rw [hg3, ha3, hs3]
  have hgw : g.w = x.w := by rw [hg4, ha4, hs4]
  have hbn : b.n = x.n := by rw [hb1, ha1, hs1, hsn]
  have hbh : b.h = x.h := by rw [hb3, ha3, hs3]
  have hbw : b.w = x.w := by rw [hb4, ha4, hs4]
  have hgamma : m.mlp_gamma actv = some g := hg
  have hbeta : m.mlp_beta actv = some b := hb
  have hmulcond : (m.param_free_norm x).n = (scalarAdd 1 g).n ∧
      (m.param_free_norm x).c = (scalarAdd 1 g).c ∧
      (m.param_free_norm x).h = (scalarAdd 1 g).h ∧
      (m.param_free_norm x).w = (scalarAdd 1 g).w := by
    refine ⟨?_, ?_, ?_, ?_⟩
    · show (m.param_free_norm x).n = g.n
      rw [hpf.1, hgn]
    · show (m.param_free_norm x).c = g.c
      rw [hpf.2.1, hg2, hxc]
    · show (m.param_free_norm x).h = g.h
      rw [hpf.2.2.1, hgh]
    · show (m.param_free_norm x).w = g.w
      rw [hpf.2.2.2, hgw]
  obtain ⟨t1, ht1, ht1n, ht1c, ht1h, ht1w⟩ :
      ∃ t1, ewMul (m.param_free_norm x) (scalarAdd 1 g) = some t1 ∧
        t1.n = x.n ∧ t1.c = x.c ∧ t1.h = x.h ∧ t1.w = x.w := by
    unfold ewMul
    rw [dif_pos hmulcond]
    exact ⟨_, rfl, hpf.1, hpf.2.1, hpf.2.2.1, hpf.2.2.2⟩
  have haddcond : t1.n = b.n ∧ t1.c = b.c ∧ t1.h = b.h ∧ t1.w = b.w := by
    refine ⟨?_, ?_, ?_, ?_⟩
    · rw [ht1n, hbn]
    · rw [ht1c, hb2, hxc]
    · rw [ht1h, hbh]
    · rw [ht1w, hbw]
  obtain ⟨out, hout, houtn, houtc, houth, houtw⟩ :
      ∃ out, ewAdd t1 b = some out ∧
        out.n = x.n ∧ out.c = x.c ∧ out.h = x.h ∧ out.w = x.w := by
    unfold ewAdd
    rw [dif_pos haddcond]
    exact ⟨_, rfl, ht1n, ht1c, ht1h, ht1w⟩
  refine ⟨⟨g, ?_, hgn, hg2, hgh, hgw⟩, ⟨b, ?_, hbn, hb2, hbh, hbw⟩,
    ⟨out, ?_, houtn, houtc, houth, houtw⟩⟩
  · simp [SPADE.gammaField, hs, ha, hgamma]
  · simp [SPADE.betaField, hs, ha, hbeta]
  · simp [SPADE.forward, hs, ha, hgamma, hbeta, ht1, hout]

/-- C3, witness at a concrete module (`ks = 1`) and 1×1×1×1 tensors. -/
theorem spade_shapes_witness :
    (∃ g, spadeTest.gammaField (t1111 3) (t1111 2) = some g ∧
      g.n = (t1111 3).n ∧ g.c = spadeTest.norm_nc ∧
      g.h = (t1111 3).h ∧ g.w = (t1111 3).w) ∧
    (∃ b, spadeTest.betaField (t1111 3) (t1111 2) = some b ∧
      b.n = (t1111 3).n ∧ b.c = spadeTest.norm_nc ∧
      b.h = (t1111 3).h ∧ b.w = (t1111 3).w) ∧
    (∃ out, spadeTest.forward (t1111 3) (t1111 2) none = some out ∧
      out.n = (t1111 3).n ∧ out.c = (t1111 3).c ∧
      out.h = (t1111 3).h ∧ out.w = (t1111 3).w) :=
  spade_shapes spadeTest (t1111 3) (t1111 2) (by decide) rfl rfl rfl
    (by decide) (by decide) (by decide) (by decide) ⟨rfl, rfl, rfl, rfl⟩

end SPADERepo
